import Mathlib

/-!
Verification of the google-authz-client core pipeline against its sources.

The embedding covers:
* `src/google_authz_client/token.py` — token discovery and bearer extraction,
  modelled over `List Char` so that whitespace trimming can be reasoned about;
* `src/google_authz_client/models.py` — `EffectiveAuth`, `PermissionCheckResult`;
* `src/google_authz_client/client.py` — `_BaseClient` helpers and the two
  remote operations of `GoogleAuthzClient` / `AsyncGoogleAuthzClient`.

HTTP transport is modelled as an oracle `Nat → Response` indexed by the number
of network calls already made; each operation reports the list of requests it
issued, so that network-call counting is a statement about list lengths.
-/

namespace GoogleAuthz

/-! ### token.py: character-level string helpers

Python `str.strip()` removes leading/trailing whitespace; the whitespace
characters relevant to `str.isspace` in the ASCII range are modelled here.
-/

/-- ASCII whitespace as recognised by Python's `str.strip()`. -/
def isWS (c : Char) : Bool :=
  c = ' ' || c = '\t' || c = '\n' || c = '\r' || c = '\x0b' || c = '\x0c'

/-- Python `str.lstrip()` on a list of characters. -/
def lstrip (s : List Char) : List Char := s.dropWhile isWS

/-- Python `str.rstrip()` on a list of characters: drop trailing whitespace,
i.e. leading whitespace of the reversal. -/
def rstrip (s : List Char) : List Char := (lstrip s.reverse).reverse

/-- Python `str.strip()` on a list of characters. -/
def pyStrip (s : List Char) : List Char := rstrip (lstrip s)

/-- ASCII lowering, as used by Python `str.lower()` on the ASCII inputs the
library compares against.  (Python also lowers non-ASCII letters; only the
ASCII behaviour is relevant to the `"bearer "` prefix comparison modelled
here.) -/
def lowerChar (c : Char) : Char :=
  if c = 'A' then 'a' else if c = 'B' then 'b' else if c = 'C' then 'c'
  else if c = 'D' then 'd' else if c = 'E' then 'e' else if c = 'F' then 'f'
  else if c = 'G' then 'g' else if c = 'H' then 'h' else if c = 'I' then 'i'
  else if c = 'J' then 'j' else if c = 'K' then 'k' else if c = 'L' then 'l'
  else if c = 'M' then 'm' else if c = 'N' then 'n' else if c = 'O' then 'o'
  else if c = 'P' then 'p' else if c = 'Q' then 'q' else if c = 'R' then 'r'
  else if c = 'S' then 's' else if c = 'T' then 't' else if c = 'U' then 'u'
  else if c = 'V' then 'v' else if c = 'W' then 'w' else if c = 'X' then 'x'
  else if c = 'Y' then 'y' else if c = 'Z' then 'z' else c

/-- Python `str.lower()` on a list of characters. -/
def lowerStr (s : List Char) : List Char := s.map lowerChar

/-- `token.py`: `BEARER_PREFIX = "bearer "` (source constant `BEARER_PREFIX`). -/
def BEARER_PREFIX_CHARS : List Char := ['b', 'e', 'a', 'r', 'e', 'r', ' ']

/-- The word `"bearer"` without the trailing space (for stating prefix facts). -/
def bearerWord : List Char := ['b', 'e', 'a', 'r', 'e', 'r']

/-- `token.py` `extract_bearer_token`:
strips whitespace, strips a case-insensitive `"bearer "` prefix (trimming
again), and converts an empty result (or empty/absent input) to `none`. -/
def extract_bearer_token (headerValue : Option (List Char)) : Option (List Char) :=
  match headerValue with
  | none => none
  | some hv =>
    if hv = [] then none
    else
      let value := pyStrip hv
      if BEARER_PREFIX_CHARS.isPrefixOf (lowerStr value) then
        some (pyStrip (value.drop BEARER_PREFIX_CHARS.length))
      else if value = [] then none else some value

/-- First-match association lookup: models Python `dict.get` (dict keys are
unique, so first match equals the dict entry). -/
def assocGet {α β : Type} [DecidableEq α] : List (α × β) → α → Option β
  | [], _ => none
  | (k, v) :: rest, key => if k = key then some v else assocGet rest key

/-- In-place-update-or-append: models Python `d[k] = v`. -/
def assocSet {α β : Type} [DecidableEq α] : List (α × β) → α → β → List (α × β)
  | [], key, val => [(key, val)]
  | (k, v) :: rest, key, val =>
    if k = key then (key, val) :: rest else (k, v) :: assocSet rest key val

/-- `token.py` `discover_token`, lines 29-34: scan the headers in order for the
first key equal (case-insensitively) to the configured header name. -/
def findHeader : List (List Char × List Char) → List Char → Option (List Char)
  | [], _ => none
  | (k, v) :: rest, hname =>
    if lowerStr k = lowerStr hname then some v else findHeader rest hname

/-- `token.py` `discover_token`: a non-empty cookie under `cookie_name` wins
as-is; otherwise the first case-insensitive match of `header_name` is fed to
`extract_bearer_token`. -/
def discover_token (headers cookies : List (List Char × List Char))
    (cookie_name header_name : List Char) : Option (List Char) :=
  match assocGet cookies cookie_name with
  | some cv =>
    if cv ≠ [] then some cv
    else extract_bearer_token (findHeader headers header_name)
  | none => extract_bearer_token (findHeader headers header_name)

/-! ### JSON values and Python coercions -/

/-- JSON values as produced by `response.json()`.  Numbers are modelled as
integers (no claim involves fractional payloads). -/
inductive JSON : Type where
  | null : JSON
  | bool : Bool → JSON
  | num : Int → JSON
  | str : String → JSON
  | arr : List JSON → JSON
  | obj : List (String × JSON) → JSON

/-- Python truthiness (`bool(x)`) of a JSON-decoded value. -/
def pyTruthy : JSON → Bool
  | JSON.null => false
  | JSON.bool b => b
  | JSON.num n => n != 0
  | JSON.str s => !s.isEmpty
  | JSON.arr xs => !xs.isEmpty
  | JSON.obj fs => !fs.isEmpty

/-- Python `str()` of a JSON-decoded value.  Scalars are rendered exactly as
Python renders them; `str()` of a list/dict produces Python's `repr`, which is
represented abstractly since no modelled payload reaches those cases. -/
def pyStr : JSON → String
  | JSON.null => "None"
  | JSON.bool true => "True"
  | JSON.bool false => "False"
  | JSON.num n => toString n
  | JSON.str s => s
  | JSON.arr _ => "<repr of a list>"
  | JSON.obj _ => "<repr of a dict>"

/-! ### models.py -/

/-- `models.py` `EffectiveAuth`: the parsed `/authz` response. -/
structure EffectiveAuth : Type where
  subject : String
  permissions : List (String × List String)
  raw : List (String × JSON)

/-- `models.py` `EffectiveAuth.allows`:
`action in actions or "*" in actions` for the module's action list
(an unlisted module yields the default `[]`). -/
def EffectiveAuth.allows (a : EffectiveAuth) (module action : String) : Bool :=
  let actions := (assocGet a.permissions module).getD []
  actions.contains action || actions.contains "*"

/-- `models.py` `EffectiveAuth.permitted_actions`. -/
def EffectiveAuth.permitted_actions (a : EffectiveAuth) (module : String) : List String :=
  (assocGet a.permissions module).getD []

/-- `models.py` `PermissionCheckResult`.  `permitted_actions` keeps the raw
JSON elements, as Python's `list(actions)` does not coerce the elements. -/
structure PermissionCheckResult : Type where
  allowed : Bool
  permitted_actions : List JSON

/-- `models.py` `PermissionCheckResult.from_payload`:
`allowed` is `bool(payload.get("allowed"))`; `permitted_actions` is
`payload.get("permitted_actions") or []` kept only when it is a non-string
iterable (a JSON array keeps its elements; a JSON object iterates over its
keys; strings and non-iterables become `[]`). -/
def PermissionCheckResult.from_payload (payload : List (String × JSON)) :
    PermissionCheckResult :=
  let allowed := pyTruthy ((assocGet payload "allowed").getD JSON.null)
  let actions :=
    match assocGet payload "permitted_actions" with
    | some v => if pyTruthy v then v else JSON.arr []
    | none => JSON.arr []
  let permitted :=
    match actions with
    | JSON.arr xs => xs
    | JSON.obj fs => fs.map (fun kv => JSON.str kv.1)
    | _ => []
  ⟨allowed, permitted⟩

/-! ### client.py: configuration, errors, transport model -/

/-- The error kinds a modelled client call can surface.
`missingCredentials` is `MissingCredentialsError`, `googleAuthzError` is
`GoogleAuthzError` raised by `_raise_for_status`, `valueError` is the
`ValueError` for an unsupported token type, and `typeError` stands for the
unhandled Python `TypeError`/`AttributeError` raised when a payload that is
expected to be a mapping is not one. -/
inductive ClientError : Type where
  | missingCredentials : String → ClientError
  | googleAuthzError : String → ClientError
  | valueError : String → ClientError
  | typeError : ClientError
deriving DecidableEq, Repr

/-- The three accepted token-type tags (`client.py` lines 31, 50). -/
def validTokenTypes : List String := ["id_token", "session_token", "access_token"]

/-- `_BaseClient` state after `__init__` (`client.py` lines 16-33).
`timeout_seconds` and `verify_tls` only configure the httpx transport and do
not influence any modelled behaviour, so they are not carried here. -/
structure ClientConfig : Type where
  base_url : String
  shared_secret : Option String
  shared_secret_header : String
  token_type : String
deriving DecidableEq, Repr

/-- Python `base_url.rstrip("/")`. -/
def rstripSlash (s : String) : String :=
  ⟨(s.data.reverse.dropWhile (fun c => c = '/')).reverse⟩

/-- `_BaseClient.__init__`: strips the trailing slashes of the base URL and
rejects an unsupported default token type with a `ValueError`. -/
def mkBaseClient (base_url : String) (shared_secret : Option String)
    (shared_secret_header : String) (token_type : String) :
    Except ClientError ClientConfig :=
  if validTokenTypes.contains token_type then
    Except.ok ⟨rstripSlash base_url, shared_secret, shared_secret_header, token_type⟩
  else
    Except.error (ClientError.valueError
      "token_type must be 'id_token', 'session_token', or 'access_token'")

/-- The header dict built by `_BaseClient._headers` once the token is known to
be non-empty.  A configured, non-empty shared secret is added under the
configured header name with dict-update semantics. -/
def headersDict (cfg : ClientConfig) (token : String) : List (String × String) :=
  let headers := [("Accept", "application/json"), ("Authorization", "Bearer " ++ token)]
  match cfg.shared_secret with
  | some s => if s ≠ "" then assocSet headers cfg.shared_secret_header s else headers
  | none => headers

/-- `_BaseClient._headers` (`client.py` lines 35-44): raises
`MissingCredentialsError` on a falsy token, else builds the header dict. -/
def headersFor (cfg : ClientConfig) (token : String) :
    Except ClientError (List (String × String)) :=
  if token = "" then
    Except.error (ClientError.missingCredentials "Token is required for google-authz calls")
  else Except.ok (headersDict cfg token)

/-- `chosen_type = token_type or self.token_type` (`client.py` line 49):
a `None` or empty-string override falls back to the configured default. -/
def resolvedTokenType (cfg : ClientConfig) (tokenType : Option String) : String :=
  match tokenType with
  | some t => if t ≠ "" then t else cfg.token_type
  | none => cfg.token_type

/-- `_BaseClient._token_payload` (`client.py` lines 46-52). -/
def tokenPayload (cfg : ClientConfig) (token : String) (tokenType : Option String) :
    Except ClientError (List (String × JSON)) :=
  if token = "" then
    Except.error (ClientError.missingCredentials "Token is required for google-authz calls")
  else
    let chosen := resolvedTokenType cfg tokenType
    if validTokenTypes.contains chosen then
      Except.ok [(chosen, JSON.str token)]
    else
      Except.error (ClientError.valueError
        "token_type must be 'id_token', 'session_token', or 'access_token'")

/-- The normalization loop of `_effective_auth_from_payload`
(`client.py` lines 57-62): a fresh dict is filled module by module —
a list/tuple/set value becomes `[str(action) for action in actions]`, a string
value becomes a one-element list, and any other value is skipped. -/
def normalizePermissions (items : List (String × JSON)) : List (String × List String) :=
  items.foldl (fun acc kv =>
    match kv.2 with
    | JSON.arr xs => assocSet acc kv.1 (xs.map pyStr)
    | JSON.str s => assocSet acc kv.1 [s]
    | _ => acc) []

/-- `_effective_auth_from_payload` (`client.py` lines 54-63).
`none` models the Python `AttributeError` raised by `.items()` when
`payload.get("permissions")` is a truthy non-mapping. -/
def effective_auth_from_payload (payload : List (String × JSON)) :
    Option EffectiveAuth :=
  let userDefault := (assocGet payload "user").getD (JSON.str "anonymous")
  let subjectVal :=
    match assocGet payload "subject" with
    | some v => if pyTruthy v then v else userDefault
    | none => userDefault
  let subject := pyStr subjectVal
  let permVal :=
    match assocGet payload "permissions" with
    | some v => if pyTruthy v then v else JSON.obj []
    | none => JSON.obj []
  match permVal with
  | JSON.obj items => some ⟨subject, normalizePermissions items, payload⟩
  | _ => none

/-- An HTTP response as seen by the client: a status code and the decoded
JSON body. -/
structure Response : Type where
  status : Nat
  body : JSON

/-- httpx `Response.raise_for_status` succeeds exactly on 2xx statuses. -/
def is2xx (status : Nat) : Bool := 200 ≤ status && status ≤ 299

/-- The httpx error detail wrapped by `GoogleAuthzError`; httpx builds its
message from the status, summarised here by the status code. -/
def httpErrorDetail (status : Nat) : String :=
  "HTTP status error for status " ++ toString status

/-- `_BaseClient._raise_for_status` (`client.py` lines 65-69). -/
def raiseForStatus (r : Response) : Except ClientError Unit :=
  if is2xx r.status then Except.ok ()
  else Except.error (ClientError.googleAuthzError (httpErrorDetail r.status))

/-- A request issued by the client: path, header dict, JSON body dict. -/
structure Request : Type where
  path : String
  headers : List (String × String)
  body : List (String × JSON)

/-- `{**base, **extra}` dict-merge semantics. -/
def dictUpdate {β : Type} (base extra : List (String × β)) : List (String × β) :=
  extra.foldl (fun acc kv => assocSet acc kv.1 kv.2) base

/-- A cache entry.  The cache parameter is typed
`MutableMapping[str, EffectiveAuth]` but Python does not enforce it, and the
code defends with `isinstance`; `other` stands for any foreign object stored
under a token (represented by a JSON value). -/
inductive CacheEntry : Type where
  | auth : EffectiveAuth → CacheEntry
  | other : JSON → CacheEntry

/-- The supplied cache: a Python mapping from raw token string to entry. -/
def Cache : Type := List (String × CacheEntry)

/-- `if cache and token in cache: cached = cache[token]; if isinstance(cached,
EffectiveAuth): return cached` (`client.py` lines 110-113 and 184-187). -/
def cacheLookup (cache : Option Cache) (token : String) : Option EffectiveAuth :=
  match cache with
  | some c =>
    if c.isEmpty then none
    else
      match assocGet c token with
      | some (CacheEntry.auth a) => some a
      | _ => none
  | none => none

/-- `if cache is not None: cache[token] = auth` (`client.py` lines 122-123
and 196-197). -/
def cacheStore (cache : Option Cache) (token : String) (auth : EffectiveAuth) :
    Option Cache :=
  match cache with
  | some c => some (assocSet c token (CacheEntry.auth auth))
  | none => none

/-- Outcome of one `fetch_effective_auth` invocation: the returned value or
error, the cache as left behind, and the network requests issued. -/
structure FetchOutcome : Type where
  result : Except ClientError EffectiveAuth
  cache : Option Cache
  requests : List Request

/-- Outcome of one `check_permission` invocation. -/
structure CheckOutcome : Type where
  result : Except ClientError PermissionCheckResult
  requests : List Request

/-- `GoogleAuthzClient.fetch_effective_auth` (`client.py` lines 103-124).
`oracle n` is the response the transport returns to the `(n+1)`-th network
call; `callsBefore` is the number of calls already made on this transport. -/
def GoogleAuthzClient.fetch_effective_auth (cfg : ClientConfig)
    (oracle : Nat → Response) (callsBefore : Nat) (token : String)
    (cache : Option Cache) (token_type : Option String) : FetchOutcome :=
  match cacheLookup cache token with
  | some a => ⟨Except.ok a, cache, []⟩
  | none =>
    match headersFor cfg token with
    | Except.error e => ⟨Except.error e, cache, []⟩
    | Except.ok hdrs =>
      match tokenPayload cfg token token_type with
      | Except.error e => ⟨Except.error e, cache, []⟩
      | Except.ok body =>
        let req : Request := ⟨"/authz", hdrs, body⟩
        let resp := oracle callsBefore
        match raiseForStatus resp with
        | Except.error e => ⟨Except.error e, cache, [req]⟩
        | Except.ok _ =>
          match resp.body with
          | JSON.obj payload =>
            match effective_auth_from_payload payload with
            | some auth => ⟨Except.ok auth, cacheStore cache token auth, [req]⟩
            | none => ⟨Except.error ClientError.typeError, cache, [req]⟩
          | _ => ⟨Except.error ClientError.typeError, cache, [req]⟩

/-- `GoogleAuthzClient.check_permission` (`client.py` lines 126-143). -/
def GoogleAuthzClient.check_permission (cfg : ClientConfig)
    (oracle : Nat → Response) (callsBefore : Nat)
    (module action token : String) (token_type : Option String) : CheckOutcome :=
  match headersFor cfg token with
  | Except.error e => ⟨Except.error e, []⟩
  | Except.ok hdrs =>
    match tokenPayload cfg token token_type with
    | Except.error e => ⟨Except.error e, []⟩
    | Except.ok tp =>
      let body := dictUpdate [("module", JSON.str module), ("action", JSON.str action)] tp
      let req : Request := ⟨"/authz/check", hdrs, body⟩
      let resp := oracle callsBefore
      match raiseForStatus resp with
      | Except.error e => ⟨Except.error e, [req]⟩
      | Except.ok _ =>
        match resp.body with
        | JSON.obj payload => ⟨Except.ok (PermissionCheckResult.from_payload payload), [req]⟩
        | _ => ⟨Except.error ClientError.typeError, [req]⟩

/-- `AsyncGoogleAuthzClient.fetch_effective_auth` (`client.py` lines 177-198):
the body duplicates the synchronous variant line for line, with `await` at the
network call; the suspension point does not change the observable outcome. -/
def AsyncGoogleAuthzClient.fetch_effective_auth (cfg : ClientConfig)
    (oracle : Nat → Response) (callsBefore : Nat) (token : String)
    (cache : Option Cache) (token_type : Option String) : FetchOutcome :=
  match cacheLookup cache token with
  | some a => ⟨Except.ok a, cache, []⟩
  | none =>
    match headersFor cfg token with
    | Except.error e => ⟨Except.error e, cache, []⟩
    | Except.ok hdrs =>
      match tokenPayload cfg token token_type with
      | Except.error e => ⟨Except.error e, cache, []⟩
      | Except.ok body =>
        let req : Request := ⟨"/authz", hdrs, body⟩
        let resp := oracle callsBefore
        match raiseForStatus resp with
        | Except.error e => ⟨Except.error e, cache, [req]⟩
        | Except.ok _ =>
          match resp.body with
          | JSON.obj payload =>
            match effective_auth_from_payload payload with
            | some auth => ⟨Except.ok auth, cacheStore cache token auth, [req]⟩
            | none => ⟨Except.error ClientError.typeError, cache, [req]⟩
          | _ => ⟨Except.error ClientError.typeError, cache, [req]⟩

/-- `AsyncGoogleAuthzClient.check_permission` (`client.py` lines 200-217). -/
def AsyncGoogleAuthzClient.check_permission (cfg : ClientConfig)
    (oracle : Nat → Response) (callsBefore : Nat)
    (module action token : String) (token_type : Option String) : CheckOutcome :=
  match headersFor cfg token with
  | Except.error e => ⟨Except.error e, []⟩
  | Except.ok hdrs =>
    match tokenPayload cfg token token_type with
    | Except.error e => ⟨Except.error e, []⟩
    | Except.ok tp =>
      let body := dictUpdate [("module", JSON.str module), ("action", JSON.str action)] tp
      let req : Request := ⟨"/authz/check", hdrs, body⟩
      let resp := oracle callsBefore
      match raiseForStatus resp with
      | Except.error e => ⟨Except.error e, [req]⟩
      | Except.ok _ =>
        match resp.body with
        | JSON.obj payload => ⟨Except.ok (PermissionCheckResult.from_payload payload), [req]⟩
        | _ => ⟨Except.error ClientError.typeError, [req]⟩

/-- Recogniser for the `MissingCredentialsError` outcome. -/
def isMissingCredentials {α : Type} : Except ClientError α → Bool
  | Except.error (ClientError.missingCredentials _) => true
  | _ => false

/-! ### Concrete fixtures used by witnesses and counterexamples -/

/-- A client built with all constructor defaults
(`GoogleAuthzClient.__init__`, `client.py` lines 75-98). -/
def cfg0 : ClientConfig :=
  ⟨"http://localhost:8080", none, "X-Authz-Shared-Secret", "id_token"⟩

/-- The payload of the round-trip example in the spec. -/
def payload0 : List (String × JSON) :=
  [("subject", JSON.str "alice"),
   ("permissions", JSON.obj [("inventory", JSON.arr [JSON.str "read"])])]

/-- The `EffectiveAuth` parsed from `payload0`. -/
def auth0 : EffectiveAuth := ⟨"alice", [("inventory", ["read"])], payload0⟩

/-- A transport that always answers 200 with `payload0`. -/
def oracle0 : Nat → Response := fun _ => ⟨200, JSON.obj payload0⟩

/-- A transport that always answers 500. -/
def oracle500 : Nat → Response := fun _ => ⟨500, JSON.obj []⟩

/-! ## Supporting lemmas: whitespace stripping -/

theorem dropWhile_shape (p : Char → Bool) (l : List Char) :
    l.dropWhile p = [] ∨ ∃ c cs, l.dropWhile p = c :: cs ∧ p c = false := by
  induction l with
  | nil => exact Or.inl rfl
  | cons a t ih =>
    by_cases hpa : p a
    · simpa [List.dropWhile_cons, hpa] using ih
    · exact Or.inr ⟨a, t, by simp [List.dropWhile_cons, hpa], by simp [hpa]⟩

theorem lstrip_cons_not_ws {a : Char} (t : List Char) (ha : isWS a = false) :
    lstrip (a :: t) = a :: t := by
  simp [lstrip, List.dropWhile_cons, ha]

theorem lstrip_cons_ws {a : Char} (t : List Char) (ha : isWS a = true) :
    lstrip (a :: t) = lstrip t := by
  simp [lstrip, List.dropWhile_cons, ha]

theorem lstrip_append_ws {w : List Char} (t : List Char)
    (hw : ∀ c ∈ w, isWS c = true) : lstrip (w ++ t) = lstrip t := by
  induction w with
  | nil => rfl
  | cons a wt ih =>
    have ha : isWS a = true := hw a (by simp)
    have h1 : lstrip ((a :: wt) ++ t) = lstrip (wt ++ t) := by
      simpa using lstrip_cons_ws (wt ++ t) ha
    rw [h1]
    exact ih fun c hc => hw c (List.mem_cons_of_mem _ hc)

theorem lstrip_concat_not_ws {a : Char} (u : List Char) (ha : isWS a = false) :
    lstrip (u ++ [a]) = lstrip u ++ [a] := by
  induction u with
  | nil => simpa [lstrip] using lstrip_cons_not_ws [] ha
  | cons b bt ih =>
    by_cases hb : isWS b
    · have h1 : lstrip ((b :: bt) ++ [a]) = lstrip (bt ++ [a]) := by
        simpa using lstrip_cons_ws (bt ++ [a]) hb
      have h2 : lstrip (b :: bt) = lstrip bt := lstrip_cons_ws bt hb
      rw [h1, h2]; exact ih
    · have hb' : isWS b = false := by simpa using hb
      have h1 : lstrip ((b :: bt) ++ [a]) = b :: (bt ++ [a]) := by
        simpa using lstrip_cons_not_ws (bt ++ [a]) hb'
      have h2 : lstrip (b :: bt) = b :: bt := lstrip_cons_not_ws bt hb'
      rw [h1, h2]; simp

theorem rstrip_append_ws (t : List Char) {w : List Char}
    (hw : ∀ c ∈ w, isWS c = true) : rstrip (t ++ w) = rstrip t := by
  unfold rstrip
  rw [List.reverse_append,
    lstrip_append_ws t.reverse fun c hc => hw c (List.mem_reverse.mp hc)]

theorem rstrip_concat_not_ws {a : Char} (t : List Char) (ha : isWS a = false) :
    rstrip (t ++ [a]) = t ++ [a] := by
  unfold rstrip
  rw [List.reverse_append]
  simp only [List.reverse_cons, List.reverse_nil, List.nil_append, List.singleton_append]
  rw [lstrip_cons_not_ws t.reverse ha]
  simp

theorem pyStrip_concat_not_ws {a : Char} (u : List Char) (ha : isWS a = false) :
    pyStrip (u ++ [a]) = lstrip u ++ [a] := by
  unfold pyStrip
  rw [lstrip_concat_not_ws u ha, rstrip_concat_not_ws (lstrip u) ha]

theorem rstrip_shape (s : List Char) :
    rstrip s = [] ∨ ∃ l a, rstrip s = l ++ [a] ∧ isWS a = false := by
  rcases dropWhile_shape isWS s.reverse with h | ⟨c, cs, h, hc⟩
  · left; simp [rstrip, lstrip, h]
  · right
    refine ⟨cs.reverse, c, ?_, hc⟩
    show (lstrip s.reverse).reverse = cs.reverse ++ [c]
    rw [show lstrip s.reverse = c :: cs from h]
    simp

theorem pyStrip_shape (s : List Char) :
    pyStrip s = [] ∨ ∃ l a, pyStrip s = l ++ [a] ∧ isWS a = false :=
  rstrip_shape (lstrip s)

theorem lstrip_eq_self_of_pyStrip {x : List Char} (hx : pyStrip x = x) :
    lstrip x = x := by
  have h1 : (lstrip x).length ≤ x.length := (List.dropWhile_suffix isWS).length_le
  have h2 : (rstrip (lstrip x)).length ≤ (lstrip x).length := by
    unfold rstrip
    calc (lstrip (lstrip x).reverse).reverse.length
        = (lstrip (lstrip x).reverse).length := by simp
      _ ≤ (lstrip x).reverse.length := (List.dropWhile_suffix isWS).length_le
      _ = (lstrip x).length := by simp
  have hxlen : (rstrip (lstrip x)).length = x.length := congrArg List.length hx
  have h3 : x.length ≤ (lstrip x).length := by omega
  exact (List.dropWhile_suffix isWS).eq_of_length (Nat.le_antisymm h1 h3)

theorem rstrip_eq_self_of_pyStrip {x : List Char} (hx : pyStrip x = x) :
    rstrip x = x := by
  have hl : lstrip x = x := lstrip_eq_self_of_pyStrip hx
  calc rstrip x = rstrip (lstrip x) := by rw [hl]
    _ = x := hx

/-! ## Supporting lemmas: ASCII lowering -/

theorem isWS_lowerChar (c : Char) : isWS (lowerChar c) = isWS c := by
  unfold lowerChar
  by_cases h1 : c = 'A'
  · subst h1; decide
  rw [if_neg h1]
  by_cases h2 : c = 'B'
  · subst h2; decide
  rw [if_neg h2]
  by_cases h3 : c = 'C'
  · subst h3; decide
  rw [if_neg h3]
  by_cases h4 : c = 'D'
  · subst h4; decide
  rw [if_neg h4]
  by_cases h5 : c = 'E'
  · subst h5; decide
  rw [if_neg h5]
  by_cases h6 : c = 'F'
  · subst h6; decide
  rw [if_neg h6]
  by_cases h7 : c = 'G'
  · subst h7; decide
  rw [if_neg h7]
  by_cases h8 : c = 'H'
  · subst h8; decide
  rw [if_neg h8]
  by_cases h9 : c = 'I'
  · subst h9; decide
  rw [if_neg h9]
  by_cases h10 : c = 'J'
  · subst h10; decide
  rw [if_neg h10]
  by_cases h11 : c = 'K'
  · subst h11; decide
  rw [if_neg h11]
  by_cases h12 : c = 'L'
  · subst h12; decide
  rw [if_neg h12]
  by_cases h13 : c = 'M'
  · subst h13; decide
  rw [if_neg h13]
  by_cases h14 : c = 'N'
  · subst h14; decide
  rw [if_neg h14]
  by_cases h15 : c = 'O'
  · subst h15; decide
  rw [if_neg h15]
  by_cases h16 : c = 'P'
  · subst h16; decide
  rw [if_neg h16]
  by_cases h17 : c = 'Q'
  · subst h17; decide
  rw [if_neg h17]
  by_cases h18 : c = 'R'
  · subst h18; decide
  rw [if_neg h18]
  by_cases h19 : c = 'S'
  · subst h19; decide
  rw [if_neg h19]
  by_cases h20 : c = 'T'
  · subst h20; decide
  rw [if_neg h20]
  by_cases h21 : c = 'U'
  · subst h21; decide
  rw [if_neg h21]
  by_cases h22 : c = 'V'
  · subst h22; decide
  rw [if_neg h22]
  by_cases h23 : c = 'W'
  · subst h23; decide
  rw [if_neg h23]
  by_cases h24 : c = 'X'
  · subst h24; decide
  rw [if_neg h24]
  by_cases h25 : c = 'Y'
  · subst h25; decide
  rw [if_neg h25]
  by_cases h26 : c = 'Z'
  · subst h26; decide
  rw [if_neg h26]

/-! ## Supporting lemmas: `extract_bearer_token` branch equations -/

theorem extract_some_bearer (hv : List Char) (hne : hv ≠ [])
    (hpre : BEARER_PREFIX_CHARS.isPrefixOf (lowerStr (pyStrip hv)) = true) :
    extract_bearer_token (some hv) =
      some (pyStrip ((pyStrip hv).drop BEARER_PREFIX_CHARS.length)) := by
  simp [extract_bearer_token, hne, hpre]

theorem extract_some_plain (hv : List Char) (hne : hv ≠ [])
    (hpre : BEARER_PREFIX_CHARS.isPrefixOf (lowerStr (pyStrip hv)) = false)
    (hs : pyStrip hv ≠ []) :
    extract_bearer_token (some hv) = some (pyStrip hv) := by
  simp [extract_bearer_token, hne, hpre, hs]

theorem extract_some_wsonly (hv : List Char) (hne : hv ≠ [])
    (hs : pyStrip hv = []) :
    extract_bearer_token (some hv) = none := by
  simp only [extract_bearer_token, hne, if_false, hs]
  decide

/-- The `"bearer "`-prefix branch of `extract_bearer_token` can never produce
the empty string: a stripped value has a non-whitespace last character, which
survives both the prefix drop and the second strip. -/
theorem pyStrip_drop_prefix_ne_nil (v : List Char)
    (hpre : BEARER_PREFIX_CHARS.isPrefixOf (lowerStr (pyStrip v)) = true) :
    pyStrip ((pyStrip v).drop BEARER_PREFIX_CHARS.length) ≠ [] := by
  rcases pyStrip_shape v with h0 | ⟨l, a, hs, ha⟩
  · rw [h0] at hpre
    exact absurd hpre (by decide)
  · have hp : BEARER_PREFIX_CHARS <+: lowerStr (pyStrip v) :=
      List.isPrefixOf_iff_prefix.mp hpre
    rw [hs] at hp ⊢
    have hlenl : (lowerStr (l ++ [a])).length = l.length + 1 := by
      simp [lowerStr]
    have hlen7 : (7 : Nat) ≤ l.length + 1 := by
      have := hp.length_le
      rw [hlenl] at this
      simpa [BEARER_PREFIX_CHARS] using this
    have h7 : 7 ≤ l.length := by
      rcases Nat.lt_or_ge l.length 7 with hlt | hge
      · exfalso
        have h6 : l.length = 6 := by omega
        have hleq : BEARER_PREFIX_CHARS.length = (lowerStr (l ++ [a])).length := by
          simp [BEARER_PREFIX_CHARS, lowerStr, h6]
        have heq : BEARER_PREFIX_CHARS = lowerStr (l ++ [a]) := hp.eq_of_length hleq
        have hmap : lowerStr (l ++ [a]) = lowerStr l ++ [lowerChar a] := by
          simp [lowerStr]
        have hsplit : lowerStr l ++ [lowerChar a] = bearerWord ++ [' '] := by
          rw [← hmap, ← heq]; rfl
        have hlen6 : (lowerStr l).length = bearerWord.length := by
          simp [lowerStr, bearerWord, h6]
        have htail := (List.append_inj hsplit hlen6).2
        have hla : lowerChar a = ' ' := by simpa using htail
        have hws : isWS a = true := by
          rw [← isWS_lowerChar, hla]; decide
        rw [hws] at ha
        exact Bool.noConfusion ha
      · exact hge
    have hdrop : (l ++ [a]).drop BEARER_PREFIX_CHARS.length = l.drop 7 ++ [a] := by
      have hlen : BEARER_PREFIX_CHARS.length = 7 := rfl
      rw [hlen]
      exact List.drop_append_of_le_length h7
    rw [hdrop, pyStrip_concat_not_ws _ ha]
    simp

/-! ## Claim C4 -/

/-- C4: `extract_bearer_token` returns `<x>` trimmed for inputs of the form
`"Bearer <x>"` (any letter casing of "bearer", arbitrary surrounding
whitespace), returns any other value trimmed, returns `none` for empty or
absent input, and never returns the empty string. -/
theorem c4_extract_bearer_token :
    (∀ w1 b rest x w2 : List Char,
        (∀ c ∈ w1, isWS c = true) → (∀ c ∈ rest, isWS c = true) →
        (∀ c ∈ w2, isWS c = true) → lowerStr b = bearerWord →
        x ≠ [] → pyStrip x = x →
        extract_bearer_token (some (w1 ++ b ++ [' '] ++ rest ++ x ++ w2)) = some x)
    ∧ (∀ v : List Char, v ≠ [] → pyStrip v ≠ [] →
        BEARER_PREFIX_CHARS.isPrefixOf (lowerStr (pyStrip v)) = false →
        extract_bearer_token (some v) = some (pyStrip v))
    ∧ extract_bearer_token none = none
    ∧ extract_bearer_token (some []) = none
    ∧ (∀ ov : Option (List Char), extract_bearer_token ov ≠ some []) := by
  refine ⟨?_, ?_, rfl, rfl, ?_⟩
  · intro w1 b rest x w2 hw1 hrest hw2 hb hxne hx
    obtain ⟨b0, b', rfl⟩ : ∃ b0 b', b = b0 :: b' := by
      cases b with
      | nil => exact absurd hb (by decide)
      | cons b0 b' => exact ⟨b0, b', rfl⟩
    have hb0 : lowerChar b0 = 'b' := by
      have h := hb
      simp [lowerStr, bearerWord] at h
      exact h.1
    have hb0ws : isWS b0 = false := by
      rw [← isWS_lowerChar, hb0]; decide
    have hblen : (b0 :: b').length = 6 := by
      have h := congrArg List.length hb
      simpa [lowerStr, bearerWord] using h
    rcases pyStrip_shape x with h0 | ⟨xi, xa, hxs, hxa⟩
    · rw [hx] at h0; exact absurd h0 hxne
    rw [hx] at hxs
    have hlx : lstrip x = x := lstrip_eq_self_of_pyStrip hx
    have hrx : rstrip x = x := rstrip_eq_self_of_pyStrip hx
    have hne : (w1 ++ (b0 :: b') ++ [' '] ++ rest ++ x ++ w2) ≠ [] := by
      simp
    have hassoc : w1 ++ (b0 :: b') ++ [' '] ++ rest ++ x ++ w2
        = w1 ++ (b0 :: ((b' ++ ([' '] ++ (rest ++ (x ++ w2)))))) := by
      simp [List.append_assoc]
    have hls : lstrip (w1 ++ (b0 :: b') ++ [' '] ++ rest ++ x ++ w2)
        = b0 :: (b' ++ ([' '] ++ (rest ++ (x ++ w2)))) := by
      rw [hassoc, lstrip_append_ws _ hw1]
      exact lstrip_cons_not_ws _ hb0ws
    have hstrip : pyStrip (w1 ++ (b0 :: b') ++ [' '] ++ rest ++ x ++ w2)
        = (b0 :: b') ++ [' '] ++ rest ++ x := by
      unfold pyStrip
      rw [hls]
      have e1 : b0 :: (b' ++ ([' '] ++ (rest ++ (x ++ w2))))
          = ((b0 :: b') ++ [' '] ++ rest ++ x) ++ w2 := by
        simp [List.append_assoc]
      rw [e1, rstrip_append_ws _ hw2]
      have e2 : (b0 :: b') ++ [' '] ++ rest ++ x
          = ((b0 :: b') ++ [' '] ++ rest ++ xi) ++ [xa] := by
        rw [hxs]; simp [List.append_assoc]
      rw [e2, rstrip_concat_not_ws _ hxa]
    have h5 : lowerStr ((b0 :: b') ++ [' ']) = bearerWord ++ [' '] := by
      unfold lowerStr at hb ⊢
      rw [List.map_append, hb]
      rfl
    have hcond : BEARER_PREFIX_CHARS.isPrefixOf
        (lowerStr (pyStrip (w1 ++ (b0 :: b') ++ [' '] ++ rest ++ x ++ w2))) = true := by
      rw [hstrip]
      have e3 : (b0 :: b') ++ [' '] ++ rest ++ x
          = ((b0 :: b') ++ [' ']) ++ (rest ++ x) := by
        simp [List.append_assoc]
      rw [e3]
      have e4 : lowerStr (((b0 :: b') ++ [' ']) ++ (rest ++ x))
          = BEARER_PREFIX_CHARS ++ lowerStr (rest ++ x) := by
        calc lowerStr (((b0 :: b') ++ [' ']) ++ (rest ++ x))
            = lowerStr ((b0 :: b') ++ [' ']) ++ lowerStr (rest ++ x) := by
              simp [lowerStr]
          _ = BEARER_PREFIX_CHARS ++ lowerStr (rest ++ x) := by rw [h5]; rfl
      rw [e4]
      exact List.isPrefixOf_iff_prefix.mpr (List.prefix_append _ _)
    rw [extract_some_bearer _ hne hcond, hstrip]
    have e6 : (b0 :: b') ++ [' '] ++ rest ++ x
        = ((b0 :: b') ++ [' ']) ++ (rest ++ x) := by
      simp [List.append_assoc]
    have hlen7 : ((b0 :: b') ++ [' ']).length = BEARER_PREFIX_CHARS.length := by
      simp only [List.length_append, List.length_cons, List.length_singleton]
      simp at hblen
      simp [BEARER_PREFIX_CHARS]
      omega
    have hdrop : ((b0 :: b') ++ [' '] ++ rest ++ x).drop BEARER_PREFIX_CHARS.length
        = rest ++ x := by
      rw [e6, ← hlen7]
      exact List.drop_left _ _
    rw [hdrop]
    have hres : pyStrip (rest ++ x) = x := by
      unfold pyStrip
      rw [lstrip_append_ws _ hrest, hlx, hrx]
    rw [hres]
  · intro v hvne hsne hpre
    exact extract_some_plain v hvne hpre hsne
  · intro ov
    match ov with
    | none => simp [extract_bearer_token]
    | some v =>
      by_cases hvne : v = []
      · subst hvne; simp [extract_bearer_token]
      · by_cases hpre : BEARER_PREFIX_CHARS.isPrefixOf (lowerStr (pyStrip v)) = true
        · rw [extract_some_bearer v hvne hpre]
          intro h
          exact pyStrip_drop_prefix_ne_nil v hpre (Option.some.inj h)
        · have hpre' : BEARER_PREFIX_CHARS.isPrefixOf (lowerStr (pyStrip v)) = false :=
            Bool.eq_false_iff.mpr hpre
          by_cases hsne : pyStrip v = []
          · rw [extract_some_wsonly v hvne hsne]
            simp
          · rw [extract_some_plain v hvne hpre' hsne]
            intro h
            exact hsne (Option.some.inj h)

/-- C4 witness: `" Bearer  foo "` yields `"foo"`, exercising the main clause
of `c4_extract_bearer_token` at a concrete input. -/
theorem c4_extract_bearer_token_witness :
    extract_bearer_token (some ([' '] ++ ['B', 'e', 'a', 'r', 'e', 'r'] ++ [' ']
      ++ [' '] ++ ['f', 'o', 'o'] ++ [' '])) = some ['f', 'o', 'o'] :=
  c4_extract_bearer_token.1 [' '] ['B', 'e', 'a', 'r', 'e', 'r'] [' ']
    ['f', 'o', 'o'] [' '] (by decide) (by decide) (by decide) (by decide)
    (by decide) (by decide)

/-! ## Claim C3 -/

/-- C3: `discover_token` returns a present non-empty cookie as-is (never the
header value); only when the cookie is absent or empty does it scan the
headers case-insensitively and apply `extract_bearer_token` to the first
match (absent when none matches, as `findHeader` then yields `none`). -/
theorem c3_discover_token :
    (∀ headers cookies cname hname cv,
        assocGet cookies cname = some cv → cv ≠ [] →
        discover_token headers cookies cname hname = some cv)
    ∧ (∀ headers cookies cname hname,
        (assocGet cookies cname = none ∨ assocGet cookies cname = some []) →
        discover_token headers cookies cname hname =
          extract_bearer_token (findHeader headers hname)) := by
  constructor
  · intro headers cookies cname hname cv hget hne
    simp [discover_token, hget, hne]
  · intro headers cookies cname hname h
    rcases h with h | h <;> simp [discover_token, h]

/-- C3 witness: with both a `session` cookie and an `authorization` header
present, the cookie value wins untouched. -/
theorem c3_discover_token_witness :
    discover_token
      [(['a', 'u', 't', 'h'], ['B', 'e', 'a', 'r', 'e', 'r', ' ', 'h'])]
      [(['s', 'e', 's', 's', 'i', 'o', 'n'], ['c', 'o', 'o', 'k'])]
      ['s', 'e', 's', 's', 'i', 'o', 'n'] ['a', 'u', 't', 'h'] =
      some ['c', 'o', 'o', 'k'] :=
  c3_discover_token.1 _ _ _ _ _ (by decide) (by decide)

/-! ## Supporting lemmas: association lists and the cache -/

theorem assocGet_assocSet_self {α β : Type} [DecidableEq α]
    (l : List (α × β)) (k : α) (v : β) :
    assocGet (assocSet l k v) k = some v := by
  induction l with
  | nil => simp [assocSet, assocGet]
  | cons kv rest ih =>
    obtain ⟨k0, v0⟩ := kv
    by_cases hk : k0 = k
    · subst hk; simp [assocSet, assocGet]
    · simp [assocSet, assocGet, hk, ih]

theorem assocGet_assocSet_ne {α β : Type} [DecidableEq α]
    (l : List (α × β)) (k m : α) (v : β) (hkm : k ≠ m) :
    assocGet (assocSet l k v) m = assocGet l m := by
  induction l with
  | nil => simp [assocSet, assocGet, hkm]
  | cons kv rest ih =>
    obtain ⟨k0, v0⟩ := kv
    by_cases hk : k0 = k
    · subst hk; simp [assocSet, assocGet, hkm]
    · simp [assocSet, assocGet, hk, ih]

theorem assocGet_eq_none_of_not_mem {α β : Type} [DecidableEq α]
    (l : List (α × β)) (m : α) (hm : m ∉ l.map Prod.fst) :
    assocGet l m = none := by
  induction l with
  | nil => rfl
  | cons kv rest ih =>
    obtain ⟨k0, v0⟩ := kv
    simp only [List.map_cons, List.mem_cons] at hm
    push_neg at hm
    have hk : k0 ≠ m := fun h => hm.1 h.symm
    simp [assocGet, hk, ih hm.2]

theorem cacheLookup_some_iff (c : Cache) (t : String) (a : EffectiveAuth) :
    cacheLookup (some c) t = some a ↔ assocGet c t = some (CacheEntry.auth a) := by
  cases c with
  | nil => simp [cacheLookup, assocGet]
  | cons kv rest =>
    simp only [cacheLookup, List.isEmpty_cons, if_false, Bool.false_eq_true]
    cases hg : assocGet (kv :: rest) t with
    | none => simp
    | some e => cases e <;> simp

theorem cacheLookup_of_assocGet_none (c : Cache) (t : String)
    (h : assocGet c t = none) : cacheLookup (some c) t = none := by
  cases c with
  | nil => rfl
  | cons kv rest => simp [cacheLookup, h]

theorem cacheLookup_of_assocGet_other (c : Cache) (t : String) (o : JSON)
    (h : assocGet c t = some (CacheEntry.other o)) :
    cacheLookup (some c) t = none := by
  cases c with
  | nil => simp [assocGet] at h
  | cons kv rest => simp [cacheLookup, h]

/-! ## Supporting lemmas: `fetch_effective_auth` branch equations -/

theorem fetch_cache_hit (cfg : ClientConfig) (oracle : Nat → Response)
    (n : Nat) (token : String) (cache : Option Cache) (tt : Option String)
    (a : EffectiveAuth) (h : cacheLookup cache token = some a) :
    GoogleAuthzClient.fetch_effective_auth cfg oracle n token cache tt =
      ⟨Except.ok a, cache, []⟩ := by
  unfold GoogleAuthzClient.fetch_effective_auth
  rw [h]

theorem fetch_missing_token (cfg : ClientConfig) (oracle : Nat → Response)
    (n : Nat) (cache : Option Cache) (tt : Option String)
    (h : cacheLookup cache "" = none) :
    GoogleAuthzClient.fetch_effective_auth cfg oracle n "" cache tt =
      ⟨Except.error (ClientError.missingCredentials
        "Token is required for google-authz calls"), cache, []⟩ := by
  unfold GoogleAuthzClient.fetch_effective_auth
  rw [h]
  rfl

theorem fetch_invalid_type (cfg : ClientConfig) (oracle : Nat → Response)
    (n : Nat) (token : String) (cache : Option Cache) (tt : Option String)
    (hmiss : cacheLookup cache token = none) (hne : token ≠ "")
    (hvalid : resolvedTokenType cfg tt ∉ validTokenTypes) :
    GoogleAuthzClient.fetch_effective_auth cfg oracle n token cache tt =
      ⟨Except.error (ClientError.valueError
        "token_type must be 'id_token', 'session_token', or 'access_token'"),
       cache, []⟩ := by
  unfold GoogleAuthzClient.fetch_effective_auth
  rw [hmiss]
  simp [headersFor, tokenPayload, hne, hvalid]

theorem fetch_non2xx (cfg : ClientConfig) (oracle : Nat → Response)
    (n : Nat) (token : String) (cache : Option Cache) (tt : Option String)
    (hmiss : cacheLookup cache token = none) (hne : token ≠ "")
    (hvalid : resolvedTokenType cfg tt ∈ validTokenTypes)
    (hst : is2xx (oracle n).status = false) :
    GoogleAuthzClient.fetch_effective_auth cfg oracle n token cache tt =
      ⟨Except.error (ClientError.googleAuthzError (httpErrorDetail (oracle n).status)),
       cache,
       [⟨"/authz", headersDict cfg token, [(resolvedTokenType cfg tt, JSON.str token)]⟩]⟩ := by
  unfold GoogleAuthzClient.fetch_effective_auth
  rw [hmiss]
  simp [headersFor, tokenPayload, raiseForStatus, hne, hvalid, hst]

theorem fetch_bad_body (cfg : ClientConfig) (oracle : Nat → Response)
    (n : Nat) (token : String) (cache : Option Cache) (tt : Option String)
    (hmiss : cacheLookup cache token = none) (hne : token ≠ "")
    (hvalid : resolvedTokenType cfg tt ∈ validTokenTypes)
    (hst : is2xx (oracle n).status = true)
    (hbody : ∀ payload, (oracle n).body ≠ JSON.obj payload) :
    GoogleAuthzClient.fetch_effective_auth cfg oracle n token cache tt =
      ⟨Except.error ClientError.typeError, cache,
       [⟨"/authz", headersDict cfg token, [(resolvedTokenType cfg tt, JSON.str token)]⟩]⟩ := by
  cases hb : (oracle n).body
  case obj payload => exact absurd hb (hbody payload)
  all_goals
    unfold GoogleAuthzClient.fetch_effective_auth
  all_goals
    rw [hmiss]
  all_goals
    simp [headersFor, tokenPayload, raiseForStatus, hne, hvalid, hst, hb]

theorem fetch_parse_fail (cfg : ClientConfig) (oracle : Nat → Response)
    (n : Nat) (token : String) (cache : Option Cache) (tt : Option String)
    (payload : List (String × JSON))
    (hmiss : cacheLookup cache token = none) (hne : token ≠ "")
    (hvalid : resolvedTokenType cfg tt ∈ validTokenTypes)
    (hst : is2xx (oracle n).status = true)
    (hbody : (oracle n).body = JSON.obj payload)
    (hparse : effective_auth_from_payload payload = none) :
    GoogleAuthzClient.fetch_effective_auth cfg oracle n token cache tt =
      ⟨Except.error ClientError.typeError, cache,
       [⟨"/authz", headersDict cfg token, [(resolvedTokenType cfg tt, JSON.str token)]⟩]⟩ := by
  unfold GoogleAuthzClient.fetch_effective_auth
  rw [hmiss]
  simp [headersFor, tokenPayload, raiseForStatus, hne, hvalid, hst, hbody, hparse]

theorem fetch_success (cfg : ClientConfig) (oracle : Nat → Response)
    (n : Nat) (token : String) (cache : Option Cache) (tt : Option String)
    (payload : List (String × JSON)) (auth : EffectiveAuth)
    (hmiss : cacheLookup cache token = none) (hne : token ≠ "")
    (hvalid : resolvedTokenType cfg tt ∈ validTokenTypes)
    (hst : is2xx (oracle n).status = true)
    (hbody : (oracle n).body = JSON.obj payload)
    (hparse : effective_auth_from_payload payload = some auth) :
    GoogleAuthzClient.fetch_effective_auth cfg oracle n token cache tt =
      ⟨Except.ok auth, cacheStore cache token auth,
       [⟨"/authz", headersDict cfg token, [(resolvedTokenType cfg tt, JSON.str token)]⟩]⟩ := by
  unfold GoogleAuthzClient.fetch_effective_auth
  rw [hmiss]
  simp [headersFor, tokenPayload, raiseForStatus, hne, hvalid, hst, hbody, hparse]

/-- Inversion: a successful result can only come from a cache hit or from a
full 2xx round trip whose body parsed. -/
theorem fetch_ok_inversion (cfg : ClientConfig) (oracle : Nat → Response)
    (n : Nat) (token : String) (cache : Option Cache) (tt : Option String)
    (a : EffectiveAuth)
    (hres : (GoogleAuthzClient.fetch_effective_auth cfg oracle n token cache tt).result =
      Except.ok a) :
    cacheLookup cache token = some a
    ∨ (cacheLookup cache token = none ∧ token ≠ ""
        ∧ resolvedTokenType cfg tt ∈ validTokenTypes
        ∧ is2xx (oracle n).status = true
        ∧ ∃ payload, (oracle n).body = JSON.obj payload
          ∧ effective_auth_from_payload payload = some a) := by
  cases hcl : cacheLookup cache token with
  | some a0 =>
    rw [fetch_cache_hit cfg oracle n token cache tt a0 hcl] at hres
    simp only [Except.ok.injEq] at hres
    subst hres
    exact Or.inl rfl
  | none =>
    right
    by_cases hne : token = ""
    · subst hne
      rw [fetch_missing_token cfg oracle n cache tt hcl] at hres
      exact absurd hres (by simp)
    by_cases hvalid : resolvedTokenType cfg tt ∈ validTokenTypes
    · by_cases hst : is2xx (oracle n).status = true
      · cases hb : (oracle n).body with
        | obj payload =>
          cases hparse : effective_auth_from_payload payload with
          | some auth =>
            rw [fetch_success cfg oracle n token cache tt payload auth
              hcl hne hvalid hst hb hparse] at hres
            simp only [Except.ok.injEq] at hres
            subst hres
            exact ⟨rfl, hne, hvalid, hst, payload, rfl, hparse⟩
          | none =>
            rw [fetch_parse_fail cfg oracle n token cache tt payload
              hcl hne hvalid hst hb hparse] at hres
            exact absurd hres (by simp)
        | null =>
          rw [fetch_bad_body cfg oracle n token cache tt hcl hne hvalid hst
            (by intro p hp; rw [hb] at hp; exact JSON.noConfusion hp)] at hres
          exact absurd hres (by simp)
        | bool b =>
          rw [fetch_bad_body cfg oracle n token cache tt hcl hne hvalid hst
            (by intro p hp; rw [hb] at hp; exact JSON.noConfusion hp)] at hres
          exact absurd hres (by simp)
        | num i =>
          rw [fetch_bad_body cfg oracle n token cache tt hcl hne hvalid hst
            (by intro p hp; rw [hb] at hp; exact JSON.noConfusion hp)] at hres
          exact absurd hres (by simp)
        | str s =>
          rw [fetch_bad_body cfg oracle n token cache tt hcl hne hvalid hst
            (by intro p hp; rw [hb] at hp; exact JSON.noConfusion hp)] at hres
          exact absurd hres (by simp)
        | arr xs =>
          rw [fetch_bad_body cfg oracle n token cache tt hcl hne hvalid hst
            (by intro p hp; rw [hb] at hp; exact JSON.noConfusion hp)] at hres
          exact absurd hres (by simp)
      · have hst' : is2xx (oracle n).status = false := Bool.eq_false_iff.mpr hst
        rw [fetch_non2xx cfg oracle n token cache tt hcl hne hvalid hst'] at hres
        exact absurd hres (by simp)
    · rw [fetch_invalid_type cfg oracle n token cache tt hcl hne hvalid] at hres
      exact absurd hres (by simp)

/-! ## Claim C1 -/

/-- C1: a cache already holding an `EffectiveAuth` under the token is returned
with no network call; on a miss, a successful fetch stores the parsed value
under the token, so the second call with the same token and cache hits the
cache and the two calls make exactly one network call in total. -/
theorem c1_fetch_cache_roundtrip :
    (∀ (cfg : ClientConfig) (oracle : Nat → Response) (n : Nat) (token : String)
        (c : Cache) (a : EffectiveAuth) (tt : Option String),
      assocGet c token = some (CacheEntry.auth a) →
      GoogleAuthzClient.fetch_effective_auth cfg oracle n token (some c) tt =
        ⟨Except.ok a, some c, []⟩)
    ∧ (∀ (cfg : ClientConfig) (oracle : Nat → Response) (n : Nat) (token : String)
        (c : Cache) (tt : Option String) (a : EffectiveAuth),
      assocGet c token = none →
      (GoogleAuthzClient.fetch_effective_auth cfg oracle n token (some c) tt).result =
        Except.ok a →
      (GoogleAuthzClient.fetch_effective_auth cfg oracle n token (some c) tt).cache =
          some (assocSet c token (CacheEntry.auth a))
        ∧ (GoogleAuthzClient.fetch_effective_auth cfg oracle n token
            (some c) tt).requests.length = 1
        ∧ GoogleAuthzClient.fetch_effective_auth cfg oracle (n + 1) token
            (some (assocSet c token (CacheEntry.auth a))) tt =
            ⟨Except.ok a, some (assocSet c token (CacheEntry.auth a)), []⟩) := by
  constructor
  · intro cfg oracle n token c a tt hget
    exact fetch_cache_hit cfg oracle n token (some c) tt a
      ((cacheLookup_some_iff c token a).mpr hget)
  · intro cfg oracle n token c tt a hget hres
    have hmiss : cacheLookup (some c) token = none :=
      cacheLookup_of_assocGet_none c token hget
    rcases fetch_ok_inversion cfg oracle n token (some c) tt a hres with
      hl | ⟨_, hne, hvalid, hst, payload, hbody, hparse⟩
    · rw [hmiss] at hl
      exact absurd hl (by simp)
    · have heq := fetch_success cfg oracle n token (some c) tt payload a
        hmiss hne hvalid hst hbody hparse
      rw [heq]
      refine ⟨rfl, rfl, ?_⟩
      exact fetch_cache_hit cfg oracle (n + 1) token
        (some (assocSet c token (CacheEntry.auth a))) tt a
        ((cacheLookup_some_iff _ token a).mpr
          (assocGet_assocSet_self c token (CacheEntry.auth a)))

/-- C1 witness: starting from an empty supplied cache, a fetch against a 200
transport parses `payload0`, stores it, and the second call returns the same
value with no further request. -/
theorem c1_fetch_cache_roundtrip_witness :
    (GoogleAuthzClient.fetch_effective_auth cfg0 oracle0 0 "token" (some []) none).cache =
        some (assocSet [] "token" (CacheEntry.auth auth0))
      ∧ (GoogleAuthzClient.fetch_effective_auth cfg0 oracle0 0 "token"
          (some []) none).requests.length = 1
      ∧ GoogleAuthzClient.fetch_effective_auth cfg0 oracle0 1 "token"
          (some (assocSet [] "token" (CacheEntry.auth auth0))) none =
          ⟨Except.ok auth0, some (assocSet [] "token" (CacheEntry.auth auth0)), []⟩ :=
  c1_fetch_cache_roundtrip.2 cfg0 oracle0 0 "token" [] none auth0 rfl rfl

/-! ## Claim C2 (corrected) -/

/-- C2 counterexample: with an empty token but a supplied cache holding an
`EffectiveAuth` under the empty-string key, `fetch_effective_auth` returns the
cached value instead of failing with `MissingCredentials` — the cache lookup
precedes the token check. -/
theorem c2_counterexample :
    GoogleAuthzClient.fetch_effective_auth cfg0 oracle0 0 ""
        (some [("", CacheEntry.auth auth0)]) none =
      ⟨Except.ok auth0, some [("", CacheEntry.auth auth0)], []⟩
    ∧ isMissingCredentials
        (GoogleAuthzClient.fetch_effective_auth cfg0 oracle0 0 ""
          (some [("", CacheEntry.auth auth0)]) none).result = false :=
  ⟨rfl, rfl⟩

/-- C2 (amended): an empty token fails with `MissingCredentials` before any
network call whenever the cache lookup does not hit; but the cache lookup runs
first, so a supplied cache holding an `EffectiveAuth` under the empty-string
key is returned instead. -/
theorem c2_empty_token :
    ∀ (cfg : ClientConfig) (oracle : Nat → Response) (n : Nat)
      (cache : Option Cache) (tt : Option String),
      (cacheLookup cache "" = none →
        GoogleAuthzClient.fetch_effective_auth cfg oracle n "" cache tt =
          ⟨Except.error (ClientError.missingCredentials
            "Token is required for google-authz calls"), cache, []⟩)
      ∧ (∀ a, cacheLookup cache "" = some a →
        GoogleAuthzClient.fetch_effective_auth cfg oracle n "" cache tt =
          ⟨Except.ok a, cache, []⟩) := by
  intro cfg oracle n cache tt
  exact ⟨fetch_missing_token cfg oracle n cache tt,
    fun a h => fetch_cache_hit cfg oracle n "" cache tt a h⟩

/-- C2 witness: without a cache, the empty token fails with
`MissingCredentials` and no request is issued. -/
theorem c2_empty_token_witness :
    GoogleAuthzClient.fetch_effective_auth cfg0 oracle0 0 "" none none =
      ⟨Except.error (ClientError.missingCredentials
        "Token is required for google-authz calls"), none, []⟩ :=
  (c2_empty_token cfg0 oracle0 0 none none).1 rfl

/-! ## Claim C8 -/

/-- C8: a non-2xx response makes `fetch_effective_auth` fail with
`GoogleAuthzError` wrapping the transport's error detail; the supplied cache
is unchanged, no `EffectiveAuth` is returned, and exactly one request was
issued (no retry). -/
theorem c8_non2xx_failure :
    ∀ (cfg : ClientConfig) (oracle : Nat → Response) (n : Nat) (token : String)
      (cache : Option Cache) (tt : Option String),
      cacheLookup cache token = none → token ≠ "" →
      resolvedTokenType cfg tt ∈ validTokenTypes →
      is2xx (oracle n).status = false →
      GoogleAuthzClient.fetch_effective_auth cfg oracle n token cache tt =
        ⟨Except.error (ClientError.googleAuthzError (httpErrorDetail (oracle n).status)),
         cache,
         [⟨"/authz", headersDict cfg token,
           [(resolvedTokenType cfg tt, JSON.str token)]⟩]⟩ :=
  fun cfg oracle n token cache tt hmiss hne hvalid hst =>
    fetch_non2xx cfg oracle n token cache tt hmiss hne hvalid hst

/-- C8 witness: a 500 answer yields the wrapped error, leaves the cache
empty-as-supplied and issues exactly one request. -/
theorem c8_non2xx_failure_witness :
    GoogleAuthzClient.fetch_effective_auth cfg0 oracle500 0 "token" (some []) none =
      ⟨Except.error (ClientError.googleAuthzError (httpErrorDetail 500)),
       some [],
       [⟨"/authz", headersDict cfg0 "token", [("id_token", JSON.str "token")]⟩]⟩ :=
  c8_non2xx_failure cfg0 oracle500 0 "token" (some []) none rfl
    (by decide) (by decide) rfl

/-! ## Claim C9 -/

/-- C9: the synchronous and asynchronous clients have identical observable
behaviour: for every configuration, transport history, token, cache and
override — and every module/action — both operations produce the same
outcome record (result, cache effect and requests issued). -/
theorem c9_sync_async_equivalence :
    (∀ (cfg : ClientConfig) (oracle : Nat → Response) (n : Nat) (token : String)
        (cache : Option Cache) (tt : Option String),
      GoogleAuthzClient.fetch_effective_auth cfg oracle n token cache tt =
        AsyncGoogleAuthzClient.fetch_effective_auth cfg oracle n token cache tt)
    ∧ (∀ (cfg : ClientConfig) (oracle : Nat → Response) (n : Nat)
        (module action token : String) (tt : Option String),
      GoogleAuthzClient.check_permission cfg oracle n module action token tt =
        AsyncGoogleAuthzClient.check_permission cfg oracle n module action token tt) :=
  ⟨fun _ _ _ _ _ _ => rfl, fun _ _ _ _ _ _ _ => rfl⟩

/-! ## Claim C10 -/

/-- C10: a cache entry that is not an `EffectiveAuth` is ignored — the remote
fetch happens and overwrites the entry; consequently after every successful
fetch with a supplied cache the entry under the token is an `EffectiveAuth`. -/
theorem c10_stale_entry_overwrite :
    (∀ (cfg : ClientConfig) (oracle : Nat → Response) (n : Nat) (token : String)
        (c : Cache) (o : JSON) (tt : Option String)
        (payload : List (String × JSON)) (auth : EffectiveAuth),
      assocGet c token = some (CacheEntry.other o) → token ≠ "" →
      resolvedTokenType cfg tt ∈ validTokenTypes →
      is2xx (oracle n).status = true →
      (oracle n).body = JSON.obj payload →
      effective_auth_from_payload payload = some auth →
      GoogleAuthzClient.fetch_effective_auth cfg oracle n token (some c) tt =
        ⟨Except.ok auth, some (assocSet c token (CacheEntry.auth auth)),
         [⟨"/authz", headersDict cfg token,
           [(resolvedTokenType cfg tt, JSON.str token)]⟩]⟩)
    ∧ (∀ (cfg : ClientConfig) (oracle : Nat → Response) (n : Nat) (token : String)
        (c : Cache) (tt : Option String) (a : EffectiveAuth) (c' : Cache),
      (GoogleAuthzClient.fetch_effective_auth cfg oracle n token (some c) tt).result =
        Except.ok a →
      (GoogleAuthzClient.fetch_effective_auth cfg oracle n token (some c) tt).cache =
        some c' →
      assocGet c' token = some (CacheEntry.auth a)) := by
  constructor
  · intro cfg oracle n token c o tt payload auth hother hne hvalid hst hbody hparse
    exact fetch_success cfg oracle n token (some c) tt payload auth
      (cacheLookup_of_assocGet_other c token o hother) hne hvalid hst hbody hparse
  · intro cfg oracle n token c tt a c' hres hcache
    rcases fetch_ok_inversion cfg oracle n token (some c) tt a hres with
      hl | ⟨hmiss, hne, hvalid, hst, payload, hbody, hparse⟩
    · rw [fetch_cache_hit cfg oracle n token (some c) tt a hl] at hcache
      have hc : c = c' := by simpa using hcache
      subst hc
      exact (cacheLookup_some_iff c token a).mp hl
    · rw [fetch_success cfg oracle n token (some c) tt payload a
        hmiss hne hvalid hst hbody hparse] at hcache
      have hc : assocSet c token (CacheEntry.auth a) = c' := by
        simpa [cacheStore] using hcache
      subst hc
      exact assocGet_assocSet_self c token (CacheEntry.auth a)

/-- C10 witness: a stale non-`EffectiveAuth` entry under the token is
overwritten by the freshly parsed value. -/
theorem c10_stale_entry_overwrite_witness :
    GoogleAuthzClient.fetch_effective_auth cfg0 oracle0 0 "token"
        (some [("token", CacheEntry.other JSON.null)]) none =
      ⟨Except.ok auth0,
       some (assocSet [("token", CacheEntry.other JSON.null)] "token"
         (CacheEntry.auth auth0)),
       [⟨"/authz", headersDict cfg0 "token", [("id_token", JSON.str "token")]⟩]⟩ :=
  c10_stale_entry_overwrite.1 cfg0 oracle0 0 "token"
    [("token", CacheEntry.other JSON.null)] JSON.null none payload0 auth0
    rfl (by decide) (by decide) rfl rfl rfl

/-! ## Claim C7 -/

theorem validTokenType_ne (s : String) (h : s ∈ validTokenTypes) :
    s ≠ "module" ∧ s ≠ "action" := by
  simp only [validTokenTypes, List.mem_cons, List.mem_singleton,
    List.not_mem_nil, or_false] at h
  rcases h with h | h | h <;> subst h <;> exact ⟨by decide, by decide⟩

theorem dictUpdate_single {mv av tok : JSON} (chosen : String)
    (h1 : chosen ≠ "module") (h2 : chosen ≠ "action") :
    dictUpdate [("module", mv), ("action", av)] [(chosen, tok)] =
      [("module", mv), ("action", av), (chosen, tok)] := by
  simp [dictUpdate, assocSet, Ne.symm h1, Ne.symm h2]

theorem check_requests (cfg : ClientConfig) (oracle : Nat → Response)
    (n : Nat) (module action token : String) (tt : Option String)
    (hne : token ≠ "") (hvalid : resolvedTokenType cfg tt ∈ validTokenTypes) :
    (GoogleAuthzClient.check_permission cfg oracle n module action token tt).requests =
      [⟨"/authz/check", headersDict cfg token,
        dictUpdate [("module", JSON.str module), ("action", JSON.str action)]
          [(resolvedTokenType cfg tt, JSON.str token)]⟩] := by
  cases hr : raiseForStatus (oracle n) with
  | error e =>
    unfold GoogleAuthzClient.check_permission
    simp [headersFor, tokenPayload, hne, hvalid, hr]
  | ok u =>
    cases hb : (oracle n).body
    all_goals
      unfold GoogleAuthzClient.check_permission
    all_goals
      simp [headersFor, tokenPayload, hne, hvalid, hr, hb]

theorem check_result_2xx (cfg : ClientConfig) (oracle : Nat → Response)
    (n : Nat) (module action token : String) (tt : Option String)
    (payload : List (String × JSON))
    (hne : token ≠ "") (hvalid : resolvedTokenType cfg tt ∈ validTokenTypes)
    (hst : is2xx (oracle n).status = true)
    (hbody : (oracle n).body = JSON.obj payload) :
    (GoogleAuthzClient.check_permission cfg oracle n module action token tt).result =
      Except.ok (PermissionCheckResult.from_payload payload) := by
  unfold GoogleAuthzClient.check_permission
  simp [headersFor, tokenPayload, raiseForStatus, hne, hvalid, hst, hbody]

/-- C7: `check_permission` sends a POST to `/authz/check` whose JSON body has
exactly the keys `module`, `action` and the resolved token-type tag; the model
has no cache, every call issues exactly one fresh request; a 2xx object body
parses via `PermissionCheckResult.from_payload`, which coerces `allowed` with
a `false` default and keeps only non-string-iterable `permitted_actions`. -/
theorem c7_check_permission :
    (∀ (cfg : ClientConfig) (oracle : Nat → Response) (n : Nat)
        (module action token : String) (tt : Option String),
      token ≠ "" → resolvedTokenType cfg tt ∈ validTokenTypes →
      (GoogleAuthzClient.check_permission cfg oracle n module action token tt).requests =
        [⟨"/authz/check", headersDict cfg token,
          [("module", JSON.str module), ("action", JSON.str action),
           (resolvedTokenType cfg tt, JSON.str token)]⟩])
    ∧ (∀ (cfg : ClientConfig) (oracle : Nat → Response) (n : Nat)
        (module action token : String) (tt : Option String)
        (payload : List (String × JSON)),
      token ≠ "" → resolvedTokenType cfg tt ∈ validTokenTypes →
      is2xx (oracle n).status = true → (oracle n).body = JSON.obj payload →
      (GoogleAuthzClient.check_permission cfg oracle n module action token tt).result =
        Except.ok (PermissionCheckResult.from_payload payload))
    ∧ PermissionCheckResult.from_payload
        [("allowed", JSON.bool true), ("permitted_actions", JSON.arr [JSON.str "read"])] =
        ⟨true, [JSON.str "read"]⟩
    ∧ (∀ pl, assocGet pl "allowed" = none →
        (PermissionCheckResult.from_payload pl).allowed = false)
    ∧ (∀ pl b, assocGet pl "allowed" = some (JSON.bool b) →
        (PermissionCheckResult.from_payload pl).allowed = b)
    ∧ (∀ pl xs, assocGet pl "permitted_actions" = some (JSON.arr xs) →
        (PermissionCheckResult.from_payload pl).permitted_actions = xs)
    ∧ (∀ pl s, assocGet pl "permitted_actions" = some (JSON.str s) →
        (PermissionCheckResult.from_payload pl).permitted_actions = [])
    ∧ (∀ pl i, assocGet pl "permitted_actions" = some (JSON.num i) →
        (PermissionCheckResult.from_payload pl).permitted_actions = [])
    ∧ (∀ pl b, assocGet pl "permitted_actions" = some (JSON.bool b) →
        (PermissionCheckResult.from_payload pl).permitted_actions = [])
    ∧ (∀ pl, assocGet pl "permitted_actions" = some JSON.null →
        (PermissionCheckResult.from_payload pl).permitted_actions = []) := by
  refine ⟨?_, ?_, rfl, ?_, ?_, ?_, ?_, ?_, ?_, ?_⟩
  · intro cfg oracle n module action token tt hne hvalid
    have hne2 := validTokenType_ne _ hvalid
    rw [check_requests cfg oracle n module action token tt hne hvalid,
      dictUpdate_single _ hne2.1 hne2.2]
  · intro cfg oracle n module action token tt payload hne hvalid hst hbody
    exact check_result_2xx cfg oracle n module action token tt payload
      hne hvalid hst hbody
  · intro pl h
    simp [PermissionCheckResult.from_payload, h, pyTruthy]
  · intro pl b h
    simp [PermissionCheckResult.from_payload, h, pyTruthy]
  · intro pl xs h
    cases xs <;> simp [PermissionCheckResult.from_payload, h, pyTruthy]
  · intro pl s h
    by_cases hse : s.isEmpty <;>
      simp [PermissionCheckResult.from_payload, h, pyTruthy, hse]
  · intro pl i h
    by_cases hi : i = 0 <;>
      simp [PermissionCheckResult.from_payload, h, pyTruthy, hi]
  · intro pl b h
    cases b <;> simp [PermissionCheckResult.from_payload, h, pyTruthy]
  · intro pl h
    simp [PermissionCheckResult.from_payload, h, pyTruthy]

/-- C7 witness: the default-token-type request body is exactly
`module`/`action`/`id_token`, at a concrete input. -/
theorem c7_check_permission_witness :
    (GoogleAuthzClient.check_permission cfg0 oracle0 0 "inventory" "read"
        "token" none).requests =
      [⟨"/authz/check", headersDict cfg0 "token",
        [("module", JSON.str "inventory"), ("action", JSON.str "read"),
         ("id_token", JSON.str "token")]⟩] :=
  c7_check_permission.1 cfg0 oracle0 0 "inventory" "read" "token" none
    (by decide) (by decide)

/-! ## Claim C6 -/

/-- C6: `allows(module, action)` is true exactly when the action is in the
module's action list or that list contains the wildcard `"*"` (an unlisted
module yields `false` via the `[]` default); the spec's round-trip and
wildcard examples hold. -/
theorem c6_allows_wildcard :
    (∀ (a : EffectiveAuth) (module action : String),
      a.allows module action = true ↔
        action ∈ (assocGet a.permissions module).getD []
        ∨ "*" ∈ (assocGet a.permissions module).getD [])
    ∧ effective_auth_from_payload payload0 = some auth0
    ∧ auth0.allows "inventory" "read" = true
    ∧ auth0.allows "inventory" "write" = false
    ∧ (∀ act : String,
        (EffectiveAuth.mk "alice" [("inventory", ["*"])] []).allows "inventory" act = true) := by
  refine ⟨?_, rfl, rfl, rfl, ?_⟩
  · intro a module action
    simp [EffectiveAuth.allows, List.elem_iff]
  · intro act
    have hstar : (["*"] : List String).contains "*" = true := by decide
    simp [EffectiveAuth.allows, assocGet, hstar]

/-! ## Claim C5 (corrected) -/

/-- The permissions loop, with its accumulating dict generalized: under unique
module keys the result of the fold is determined by the three-case analysis of
the module's value. -/
theorem normalize_foldl_get (items : List (String × JSON))
    (acc : List (String × List String)) (m : String)
    (hnd : (items.map Prod.fst).Nodup) :
    assocGet (items.foldl (fun acc kv =>
        match kv.2 with
        | JSON.arr xs => assocSet acc kv.1 (xs.map pyStr)
        | JSON.str s => assocSet acc kv.1 [s]
        | _ => acc) acc) m =
      match assocGet items m with
      | some (JSON.arr xs) => some (xs.map pyStr)
      | some (JSON.str s) => some [s]
      | some _ => assocGet acc m
      | none => assocGet acc m := by
  revert hnd
  induction items generalizing acc with
  | nil => intro _; rfl
  | cons kv rest ih =>
    intro hnd
    obtain ⟨k0, v0⟩ := kv
    simp only [List.map_cons, List.nodup_cons] at hnd
    obtain ⟨hk0, hnd2⟩ := hnd
    by_cases hkm : k0 = m
    · subst hkm
      have hrest : assocGet rest k0 = none :=
        assocGet_eq_none_of_not_mem rest k0 hk0
      have hcons : assocGet ((k0, v0) :: rest) k0 = some v0 := by
        simp [assocGet]
      simp only [List.foldl_cons]
      rw [ih _ hnd2, hrest, hcons]
      cases v0 <;> simp [assocGet_assocSet_self]
    · have hcons : assocGet ((k0, v0) :: rest) m = assocGet rest m := by
        simp [assocGet, hkm]
      simp only [List.foldl_cons]
      rw [ih _ hnd2, hcons]
      cases hr : assocGet rest m with
      | none => cases v0 <;> simp [assocGet_assocSet_ne _ _ _ _ hkm]
      | some w =>
        cases w <;> cases v0 <;> simp [assocGet_assocSet_ne _ _ _ _ hkm]

/-- `normalizePermissions` under unique module keys: an array value maps to
its `str()`-coerced elements, a string value to a one-element list, everything
else is dropped. -/
theorem normalizePermissions_get (items : List (String × JSON)) (m : String)
    (hnd : (items.map Prod.fst).Nodup) :
    assocGet (normalizePermissions items) m =
      match assocGet items m with
      | some (JSON.arr xs) => some (xs.map pyStr)
      | some (JSON.str s) => some [s]
      | some _ => none
      | none => none := by
  unfold normalizePermissions
  rw [normalize_foldl_get items [] m hnd]
  cases hg : assocGet items m with
  | none => rfl
  | some v => cases v <;> rfl

theorem map_pyStr_str (ss : List String) : (ss.map JSON.str).map pyStr = ss := by
  induction ss with
  | nil => rfl
  | cons s st ih => simp [pyStr, ih]

/-- Inversion of `_effective_auth_from_payload`: a successful parse fixes the
subject expression and the permissions normalization. -/
theorem effective_auth_inv (payload : List (String × JSON)) (a : EffectiveAuth)
    (h : effective_auth_from_payload payload = some a) :
    ∃ items, (match assocGet payload "permissions" with
        | some v => if pyTruthy v then v else JSON.obj []
        | none => JSON.obj []) = JSON.obj items
      ∧ a = ⟨pyStr (match assocGet payload "subject" with
            | some v => if pyTruthy v then v else
                (assocGet payload "user").getD (JSON.str "anonymous")
            | none => (assocGet payload "user").getD (JSON.str "anonymous")),
          normalizePermissions items, payload⟩ := by
  simp only [effective_auth_from_payload] at h
  cases hm : (match assocGet payload "permissions" with
      | some v => if pyTruthy v then v else JSON.obj []
      | none => JSON.obj []) with
  | obj items =>
    rw [hm] at h
    exact ⟨items, rfl, (Option.some.inj h).symm⟩
  | null => rw [hm] at h; exact absurd h (by simp)
  | bool b => rw [hm] at h; exact absurd h (by simp)
  | num i => rw [hm] at h; exact absurd h (by simp)
  | str s => rw [hm] at h; exact absurd h (by simp)
  | arr xs => rw [hm] at h; exact absurd h (by simp)

/-- C5 counterexample: the payload `{"subject": "", "user": "bob"}` has a
`subject` field, yet the parsed subject is `"bob"`, not `""` — the code tests
the subject value for Python truthiness, not for presence. -/
theorem c5_counterexample :
    (effective_auth_from_payload
        [("subject", JSON.str ""), ("user", JSON.str "bob")]).map EffectiveAuth.subject
      = some "bob"
    ∧ ((effective_auth_from_payload
        [("subject", JSON.str ""), ("user", JSON.str "bob")]).map EffectiveAuth.subject
      = some "" → False) := by
  constructor
  · rfl
  · intro h
    rw [show (effective_auth_from_payload
        [("subject", JSON.str ""), ("user", JSON.str "bob")]).map EffectiveAuth.subject
        = some "bob" from rfl] at h
    exact absurd h (by decide)

/-- C5 (amended): the parsed subject is the payload's `subject` field when it
is present and truthy (a non-empty string), else the `user` field when
present, else `"anonymous"`; the permissions mapping is normalized per module
by exactly three cases (array → `str()`-mapped sequence, string → one-element
sequence, anything else dropped). -/
theorem c5_effective_auth_normalization :
    (∀ (payload : List (String × JSON)) (a : EffectiveAuth),
      effective_auth_from_payload payload = some a →
      ((∀ s, assocGet payload "subject" = some (JSON.str s) → s ≠ "" →
          a.subject = s)
      ∧ (∀ u, (assocGet payload "subject" = none ∨
            (∃ v, assocGet payload "subject" = some v ∧ pyTruthy v = false)) →
          assocGet payload "user" = some (JSON.str u) → a.subject = u)
      ∧ ((assocGet payload "subject" = none ∨
            (∃ v, assocGet payload "subject" = some v ∧ pyTruthy v = false)) →
          assocGet payload "user" = none → a.subject = "anonymous")
      ∧ (∀ items, assocGet payload "permissions" = some (JSON.obj items) →
          a.permissions = normalizePermissions items)))
    ∧ (∀ (items : List (String × JSON)) (m : String),
        (items.map Prod.fst).Nodup →
        assocGet (normalizePermissions items) m =
          match assocGet items m with
          | some (JSON.arr xs) => some (xs.map pyStr)
          | some (JSON.str s) => some [s]
          | some _ => none
          | none => none)
    ∧ (∀ (items : List (String × JSON)) (m : String) (ss : List String),
        (items.map Prod.fst).Nodup →
        assocGet items m = some (JSON.arr (ss.map JSON.str)) →
        assocGet (normalizePermissions items) m = some ss) := by
  refine ⟨?_, ?_, ?_⟩
  · intro payload a h
    obtain ⟨items, hitems, ha⟩ := effective_auth_inv payload a h
    subst ha
    refine ⟨?_, ?_, ?_, ?_⟩
    · intro s hs hne
      have hemp : s.isEmpty = false := by
        cases hse : s.isEmpty with
        | true => exact absurd ((String.isEmpty_iff s).mp hse) hne
        | false => rfl
      simp [hs, pyTruthy, pyStr, hemp]
    · intro u hsub huser
      rcases hsub with hnone | ⟨v, hv, hfalse⟩
      · simp [hnone, huser, pyStr]
      · simp [hv, hfalse, huser, pyStr]
    · intro hsub huser
      rcases hsub with hnone | ⟨v, hv, hfalse⟩
      · simp [hnone, huser, pyStr]
      · simp [hv, hfalse, huser, pyStr]
    · intro items2 hperm
      rw [hperm] at hitems
      cases items2 with
      | nil =>
        simp [pyTruthy] at hitems
        simp [← hitems]
      | cons p ps =>
        simp [pyTruthy] at hitems
        simp [← hitems]
  · intro items m hnd
    exact normalizePermissions_get items m hnd
  · intro items m ss hnd hget
    rw [normalizePermissions_get items m hnd, hget]
    rw [show (match some (JSON.arr (ss.map JSON.str)) with
      | some (JSON.arr xs) => some (xs.map pyStr)
      | some (JSON.str s) => some [s]
      | some _ => none
      | none => (none : Option (List String))) =
        some ((ss.map JSON.str).map pyStr) from rfl]
    rw [map_pyStr_str]

/-- C5 witness: a concrete array-of-strings module normalizes to exactly that
sequence, via `c5_effective_auth_normalization`. -/
theorem c5_effective_auth_normalization_witness :
    assocGet (normalizePermissions [("inventory", JSON.arr [JSON.str "read"])])
        "inventory" = some ["read"] :=
  c5_effective_auth_normalization.2.2 [("inventory", JSON.arr [JSON.str "read"])]
    "inventory" ["read"] (by decide) rfl

end GoogleAuthz
